import Mathlib

/-!
Verification of the drone-downstream plugin (`internal/plugin/impl.go`)
against its natural-language specification.

The Go code is shallowly embedded: pure helpers become Lean functions,
the per-tick bodies of the `select` loops in `Execute` and
`blockUntilBuildIsFinished` become pure functions over an explicit
`waiting` flag and an explicit event/tick sequence, and every call made
to the remote Drone client is recorded in a trace so that "issues no
trigger", "performs no fetch" style properties can be stated.
Remote-client operations are modelled as functions returning
`Except String _` (the `error` results of the Go client).
-/

namespace DroneDownstream

/-- Build status values of `drone-go` (`drone.StatusRunning` etc.).
`other` stands for any further status string the server may return. -/
inductive Status
  | pending
  | running
  | passing
  | failing
  | error
  | killed
  | declined
  | skipped
  | other (s : String)
deriving DecidableEq

/-- The underlying status string of `drone-go` for each constructor
(`drone.StatusPassing = "success"`, ...). Used only in error messages. -/
def statusString : Status → String
  | .pending => "pending"
  | .running => "running"
  | .passing => "success"
  | .failing => "failure"
  | .error => "error"
  | .killed => "killed"
  | .declined => "declined"
  | .skipped => "skipped"
  | .other s => s

/-- The fields of `drone.Build` the plugin reads: `Number`, `Status`, `Source`. -/
structure Build where
  number : Int
  status : Status
  source : String
deriving DecidableEq

/-- `map[string]string` of Go, modelled extensionally. -/
def Params := String → Option String

/-- The empty parameter map. -/
def emptyParams : Params := fun _ => none

/-- Go map assignment `m[k] = v`. -/
def setParam (m : Params) (k v : String) : Params :=
  fun q => if q = k then some v else m q

/-- The operations of `drone.Client` used by the plugin
(`BuildLast`, `Build`, `BuildList`, `Promote`, `BuildRestart`, `BuildCancel`),
each returning `Except String` for the Go `error` result. -/
structure Client where
  buildLast : String → String → String → Except String Build
  build : String → String → Int → Except String Build
  buildList : String → String → Except String (List Build)
  promote : String → String → Int → String → Params → Except String Build
  buildRestart : String → String → Int → Params → Except String Build
  buildCancel : String → String → Int → Except String Unit

/-- One remote-client call, as recorded in a trace. -/
inductive Call
  | fetchBuildList
  | fetchBuild (number : Int)
  | fetchBuildLast (branch : String)
  | promote (number : Int)
  | restart (number : Int)
  | cancel (number : Int)
deriving DecidableEq

/-- `strings.Split(s, sep)` of Go for a one-character separator, on the
character sequence of the string. -/
def splitChar (sep : Char) : List Char → List (List Char)
  | [] => [[]]
  | c :: cs =>
    if c = sep then [] :: splitChar sep cs
    else
      match splitChar sep cs with
      | [] => [[c]]
      | h :: t => (c :: h) :: t

/-- `parseRepoBranch` of `impl.go`: split the entry on `"@"`; only when that
yields exactly two parts is the right part taken as the branch and the left
part kept as the repo; then split the repo on `"/"`; only when that yields
exactly two parts are owner and name set (otherwise they stay `""`). -/
def parseRepoBranch (repo : String) : String × String × String :=
  let parts := splitChar '@' repo.data
  let branchAndRepo : List Char × List Char :=
    match parts with
    | [left, right] => (right, left)
    | _ => ([], repo.data)
  let parts2 := splitChar '/' branchAndRepo.2
  let ownerAndName : List Char × List Char :=
    match parts2 with
    | [left, right] => (left, right)
    | _ => ([], [])
  (⟨ownerAndName.1⟩, ⟨ownerAndName.2⟩, ⟨branchAndRepo.1⟩)

/-- Lines 100–104 of `Execute`: parse the entry and reject it when owner or
name came back empty. -/
def parseEntryCheck (entry : String) : Except String (String × String × String) :=
  let p := parseRepoBranch entry
  if p.1 = "" ∨ p.2.1 = "" then
    .error ("unable to parse repository name " ++ entry)
  else .ok p

/-- Decimal digit accumulation for `atoi`: `none` as soon as a non-digit
character occurs. -/
def atoiDigits : List Char → Nat → Option Nat
  | [], acc => some acc
  | c :: cs, acc =>
    if c.isDigit then atoiDigits cs (acc * 10 + (c.toNat - 48))
    else none

/-- `strconv.Atoi` with the error ignored, as at line 158 of `impl.go`
(`buildNumber, _ := strconv.Atoi(branch)`): an optional sign followed by
decimal digits; any parse failure yields the zero value 0 that the Go code
then uses. -/
def atoi (s : String) : Int :=
  match s.data with
  | [] => 0
  | '-' :: cs =>
    match atoiDigits cs 0 with
    | some n => -(n : Int)
    | none => 0
  | '+' :: cs =>
    match atoiDigits cs 0 with
    | some n => (n : Int)
    | none => 0
  | cs =>
    match atoiDigits cs 0 with
    | some n => (n : Int)
    | none => 0

/-- `strings.SplitN(s, sep, 2)` restricted to what `parseParams` needs:
`some (left, right)` when the separator occurs (split at its first
occurrence), `none` otherwise. -/
def splitOnce (sep : Char) : List Char → Option (List Char × List Char)
  | [] => none
  | c :: cs =>
    if c = sep then some ([], cs)
    else
      match splitOnce sep cs with
      | none => none
      | some (l, r) => some (c :: l, r)

/-- `parseParams` of `impl.go`. Each list entry either contains `=` and is
split at the first `=` into a key/value pair, or is treated as a file path:
a missing file is an error, an existing file contributes its `KEY=VALUE`
pairs. The filesystem collaborator `fs` maps a path to `none` (no such
file) or to the parsed pairs of the dotenv file. -/
def parseParamsAux (fs : String → Option (List (String × String))) :
    List String → Params → Except String Params
  | [], params => .ok params
  | p :: rest, params =>
    match splitOnce '=' p.data with
    | some (k, v) => parseParamsAux fs rest (setParam params ⟨k⟩ ⟨v⟩)
    | none =>
      match fs p with
      | none =>
        .error ("invalid param " ++ p ++ "; must be KEY=VALUE or file path")
      | some fileParams =>
        parseParamsAux fs rest (fileParams.foldl (fun m kv => setParam m kv.1 kv.2) params)

/-- See `parseParamsAux`; the map starts out empty. -/
def parseParams (fs : String → Option (List (String × String)))
    (paramList : List String) : Except String Params :=
  parseParamsAux fs paramList emptyParams

/-- `getServerWithDefaults` of `impl.go`. -/
def getServerWithDefaults (server host protocol : String) : String :=
  if server ≠ "" then server
  else if host = "" ∨ protocol = "" then ""
  else protocol ++ "://" ++ host

/-- The `params_from_env` loop of `Validate` (lines 72–79 of `impl.go`):
for each declared key, fail when it is absent from the process environment,
otherwise write the environment value into the map. -/
def applyParamsEnv (env : String → Option String) :
    List String → Params → Except String Params
  | [], ps => .ok ps
  | k :: ks, ps =>
    match env k with
    | none => .error ("param_from_env " ++ k ++ " is not set")
    | some v => applyParamsEnv env ks (setParam ps k v)

/-- The `Validate` method of the plugin. Inputs are the raw settings fields
together with the process environment `env` and the filesystem `fs`; the
result is the resolved server plus the resolved parameter map, or the error
of the first failing check. The order of the steps is that of the source:
token check, server resolution and check, wait/last_successful conflict
check, `parseParams`, `DRONE_BUILD_NUMBER` injection, `params_from_env`
lookups. -/
def Validate (env : String → Option String)
    (fs : String → Option (List (String × String)))
    (token server host proto : String) (wait lastSuccessful : Bool)
    (paramList paramsEnv : List String) : Except String (String × Params) :=
  if token = "" then
    Except.error "you must provide your drone access token"
  else
    let server := getServerWithDefaults server host proto
    if server = "" then
      Except.error "you must provide your drone server"
    else if wait && lastSuccessful then
      Except.error "only one of wait and last_successful can be true; choose one"
    else
      match parseParams fs paramList with
      | .error e => Except.error ("unable to parse params: " ++ e)
      | .ok params0 =>
        let params1 :=
          match env "DRONE_BUILD_NUMBER" with
          | some v => setParam params0 "DRONE_UPSTREAM_BUILD_NUMBER" v
          | none => params0
        match applyParamsEnv env paramsEnv params1 with
        | .error e => Except.error e
        | .ok params => Except.ok (server, params)

/-- The settings fields `Execute` reads inside the tick loop. -/
structure Settings where
  wait : Bool
  lastSuccessful : Bool
  deploy : String
  block : Bool
  params : Params

/-- Outcome of one pass of the `case <-tick:` body of `Execute`:
a fatal `return err`, a `continue` to the next tick carrying the (possibly
updated) `waiting` flag, or a successful trigger followed by `break I`. -/
inductive TickOutcome
  | fatal (msg : String)
  | next (waiting : Bool)
  | triggered (newBuild : Build)
deriving DecidableEq

/-- The plain-rebuild section of the `case <-tick:` body of `Execute`
(lines 195–250 of `impl.go`): fetch the latest build with `BuildLast`, enter
the waiting state or substitute the last successful build as requested, and
issue the `BuildRestart` trigger. `calls0` are the calls already recorded by
the deploy section of the same tick (empty when no deploy is configured). -/
def plainStep (s : Settings) (c : Client) (blocker : Int → Except String Unit)
    (entry owner name branch : String) (waiting : Bool) (calls0 : List Call) :
    TickOutcome × List Call :=
  match c.buildLast owner name branch with
  | .error e =>
    if waiting then (.next waiting, calls0 ++ [.fetchBuildLast branch])
    else
      (.fatal ("unable to get latest build for " ++ entry ++ ": " ++ e),
        calls0 ++ [.fetchBuildLast branch])
  | .ok build0 =>
    let calls1 := calls0 ++ [.fetchBuildLast branch]
    if s.wait = true ∧ waiting = false ∧
        (build0.status = Status.running ∨ build0.status = Status.pending) then
      (.next true, calls1)
    else
      let substituted : Sum (TickOutcome × List Call) (Build × List Call) :=
        if s.lastSuccessful = true ∧ build0.status ≠ Status.passing then
          match c.buildList owner name with
          | .error _ =>
            .inl (.fatal ("unable to get build list for " ++ entry),
              calls1 ++ [.fetchBuildList])
          | .ok builds =>
            match builds.find? (fun b => b.source = branch ∧ b.status = Status.passing) with
            | some b => .inr (b, calls1 ++ [.fetchBuildList])
            | none =>
              .inl (.fatal ("unable to get last successful build for " ++ entry),
                calls1 ++ [.fetchBuildList])
        else .inr (build0, calls1)
      match substituted with
      | .inl out => out
      | .inr (build, calls2) =>
        if (build.status ≠ Status.running ∧ build.status ≠ Status.pending) ∨
            s.wait = false then
          match c.buildRestart owner name build.number s.params with
          | .error _ =>
            if waiting then (.next waiting, calls2 ++ [.restart build.number])
            else
              (.fatal ("unable to trigger build for " ++ entry),
                calls2 ++ [.restart build.number])
          | .ok newBuild =>
            if s.block then
              match blocker newBuild.number with
              | .error e => (.fatal e, calls2 ++ [.restart build.number])
              | .ok _ => (.triggered newBuild, calls2 ++ [.restart build.number])
            else (.triggered newBuild, calls2 ++ [.restart build.number])
        else (.next waiting, calls2)

/-- One pass of the `case <-tick:` body of `Execute` (lines 136–251 of
`impl.go`), for one already-parsed entry. `blocker` abstracts
`blockUntilBuildIsFinished` applied to the new build's number (only
consulted when `s.block`). Besides the outcome, the list of remote-client
calls made during the pass is returned, in order. The deploy section either
settles the tick (`Sum.inl`) or falls through (`Sum.inr`) to `plainStep`,
exactly as control does in the source when the deploy `if` chain takes
neither the `continue` nor the trigger branch. -/
def executeTick (s : Settings) (c : Client) (blocker : Int → Except String Unit)
    (entry owner name branch : String) (waiting : Bool) :
    TickOutcome × List Call :=
  let deployPart : Sum (TickOutcome × List Call) (List Call) :=
    if s.deploy ≠ "" then
      let resolved : Sum (TickOutcome × List Call) (Build × List Call) :=
        if s.lastSuccessful then
          match c.buildList owner name with
          | .error _ =>
            .inl (.fatal ("unable to get build list for " ++ entry), [.fetchBuildList])
          | .ok builds =>
            match builds.find? (fun b => b.source = branch ∧ b.status = Status.passing) with
            | some b => .inr (b, [.fetchBuildList])
            | none =>
              .inl (.fatal ("unable to get last successful build for " ++ entry),
                [.fetchBuildList])
        else
          let buildNumber := atoi branch
          match c.build owner name buildNumber with
          | .error _ =>
            .inl (.fatal ("unable to get requested build " ++ toString buildNumber ++
              " for deploy for " ++ entry), [.fetchBuild buildNumber])
          | .ok b => .inr (b, [.fetchBuild buildNumber])
      match resolved with
      | .inl out => .inl out
      | .inr (build, calls) =>
        if s.wait = true ∧ waiting = false ∧
            (build.status = Status.running ∨ build.status = Status.pending) then
          .inl (.next true, calls)
        else if (build.status ≠ Status.running ∧ build.status ≠ Status.pending) ∨
            s.wait = false then
          match c.promote owner name build.number s.deploy s.params with
          | .error e =>
            if waiting then .inl (.next waiting, calls ++ [.promote build.number])
            else
              .inl (.fatal ("unable to trigger deploy for " ++ entry ++ " - err " ++ e),
                calls ++ [.promote build.number])
          | .ok newBuild =>
            if s.block then
              match blocker newBuild.number with
              | .error e => .inl (.fatal e, calls ++ [.promote build.number])
              | .ok _ => .inl (.triggered newBuild, calls ++ [.promote build.number])
            else .inl (.triggered newBuild, calls ++ [.promote build.number])
        else .inr calls
    else .inr []
  match deployPart with
  | .inl out => out
  | .inr calls0 => plainStep s c blocker entry owner name branch waiting calls0

/-- Result of the whole tick loop `I:` of `Execute` for one entry. -/
inductive LoopResult
  | fatal (msg : String)
  | timedOut (msg : String)
  | triggered (newBuild : Build)
deriving DecidableEq

/-- The tick loop `I:` of `Execute` (lines 119–252): starting with
`waiting = false`, run one tick per time unit until a fatal error, a
successful trigger, or the timeout. `fuel` is the number of ticks the
timeout budget still allows (when it reaches 0 the `<-timeout` case fires);
`client` and `blocker` may depend on the index of the tick, modelling the
changing remote state. The traces of the individual ticks are returned as
a list, one entry per tick executed. -/
def executeLoop (s : Settings) (client : Nat → Client)
    (blocker : Nat → Int → Except String Unit)
    (entry owner name branch : String) :
    Nat → Bool → Nat → LoopResult × List (List Call)
  | 0, _, _ => (.timedOut ("timed out waiting on a build for " ++ entry), [])
  | fuel + 1, waiting, tickIdx =>
    match executeTick s (client tickIdx) (blocker tickIdx) entry owner name branch waiting with
    | (.fatal m, calls) => (.fatal m, [calls])
    | (.triggered nb, calls) => (.triggered nb, [calls])
    | (.next w, calls) =>
      let rest := executeLoop s client blocker entry owner name branch fuel w (tickIdx + 1)
      (rest.1, calls :: rest.2)

/-- The two events the `select` of `blockUntilBuildIsFinished` can receive
besides its timeout: an OS signal (SIGINT/SIGTERM) or a poll tick. -/
inductive BlockEvent
  | signal
  | tick
deriving DecidableEq

/-- `blockUntilBuildIsFinished` of `impl.go`, over an explicit sequence of
the events its `select` receives; an exhausted sequence stands for the
`<-timeout` case firing. Returns the Go `error` result (`Except.ok ()` for
`return nil`) together with the trace of remote-client calls. -/
def blockUntilBuildIsFinished (c : Client) (ns nm : String) (buildNumber : Int) :
    List BlockEvent → Except String Unit × List Call
  | [] => (.error ("timed out waiting for " ++ toString buildNumber), [])
  | .signal :: _ =>
    match c.buildCancel ns nm buildNumber with
    | .error _ =>
      (.error ("could not cancel downstream job " ++ toString buildNumber),
        [.cancel buildNumber])
    | .ok _ => (.ok (), [.cancel buildNumber])
  | .tick :: rest =>
    match c.build ns nm buildNumber with
    | .error e => (.error e, [.fetchBuild buildNumber])
    | .ok build =>
      match build.status with
      | .error | .killed | .failing | .declined | .skipped =>
        (.error ("build " ++ toString buildNumber ++ " did not succeed: " ++
          statusString build.status), [.fetchBuild buildNumber])
      | .passing => (.ok (), [.fetchBuild buildNumber])
      | _ =>
        let r := blockUntilBuildIsFinished c ns nm buildNumber rest
        (r.1, .fetchBuild buildNumber :: r.2)

/-! ### Concrete fixtures used by witnesses and counterexamples -/

/-- A client whose every operation fails with a transport error. -/
def downClient : Client where
  buildLast := fun _ _ _ => .error "transport failure"
  build := fun _ _ _ => .error "transport failure"
  buildList := fun _ _ => .error "transport failure"
  promote := fun _ _ _ _ _ => .error "transport failure"
  buildRestart := fun _ _ _ _ => .error "transport failure"
  buildCancel := fun _ _ _ => .error "transport failure"

/-- A client on whose server build 5 is running, the latest build of every
branch is the passing build 9, restarts succeed (creating build number
`n + 100`), and cancels succeed. -/
def busyDeployClient : Client where
  buildLast := fun _ _ _ => .ok ⟨9, .passing, "main"⟩
  build := fun _ _ _ => .ok ⟨5, .running, "main"⟩
  buildList := fun _ _ => .error "transport failure"
  promote := fun _ _ _ _ _ => .error "transport failure"
  buildRestart := fun _ _ n _ => .ok ⟨n + 100, .pending, "main"⟩
  buildCancel := fun _ _ _ => .ok ()

/-- Deploy settings with `wait` requested, as validated settings allow. -/
def deployWaitSettings : Settings where
  wait := true
  lastSuccessful := false
  deploy := "production"
  block := false
  params := emptyParams

/-- Plain-rebuild settings with `wait` requested. -/
def plainWaitSettings : Settings where
  wait := true
  lastSuccessful := false
  deploy := ""
  block := false
  params := emptyParams

/-- Plain-rebuild settings with `last_successful` requested. -/
def plainLastSuccessfulSettings : Settings where
  wait := false
  lastSuccessful := true
  deploy := ""
  block := false
  params := emptyParams

/-- A trivial blocker, for scenarios with `block = false`. -/
def noopBlocker : Nat → Int → Except String Unit := fun _ _ => .ok ()

/-- Deploy settings with `last_successful` requested. -/
def deployLastSuccessfulSettings : Settings where
  wait := false
  lastSuccessful := true
  deploy := "production"
  block := false
  params := emptyParams

/-! ### Helper lemmas about `applyParamsEnv` -/

/-- A key not declared in `params_from_env` keeps whatever value the map
already had when the environment loop succeeds. -/
theorem applyParamsEnv_not_mem (env : String → Option String) (ks : List String)
    (key : String) (hk : key ∉ ks) :
    ∀ ps p, applyParamsEnv env ks ps = .ok p → p key = ps key := by
  induction ks with
  | nil =>
    intro ps p hp
    cases hp
    rfl
  | cons k ks ih =>
    intro ps p hp
    have hne : key ≠ k := fun h => hk (h ▸ List.mem_cons_self k ks)
    have htl : key ∉ ks := fun h => hk (List.mem_cons_of_mem k h)
    cases he : env k with
    | none => simp [applyParamsEnv, he] at hp
    | some v =>
      simp only [applyParamsEnv, he] at hp
      have := ih htl (setParam ps k v) p hp
      rw [this, setParam, if_neg hne]

/-- A key declared in `params_from_env` ends up bound to its environment
value when the environment loop succeeds. -/
theorem applyParamsEnv_mem (env : String → Option String) (ks : List String)
    (key : String) (hk : key ∈ ks) :
    ∀ ps p, applyParamsEnv env ks ps = .ok p → p key = env key := by
  induction ks with
  | nil => simp at hk
  | cons k ks ih =>
    intro ps p hp
    cases he : env k with
    | none => simp [applyParamsEnv, he] at hp
    | some v =>
      simp only [applyParamsEnv, he] at hp
      by_cases hmem : key ∈ ks
      · exact ih hmem (setParam ps k v) p hp
      · have hkk : key = k := by
          rcases List.mem_cons.mp hk with h | h
          · exact h
          · exact absurd h hmem
        subst hkk
        have := applyParamsEnv_not_mem env ks key hmem (setParam ps key v) p hp
        rw [this, setParam, if_pos rfl, he]

/-- Every error of the environment loop is a "param_from_env … is not set"
message. -/
theorem applyParamsEnv_error_form (env : String → Option String) (ks : List String) :
    ∀ ps e, applyParamsEnv env ks ps = .error e →
      ∃ k, e = "param_from_env " ++ k ++ " is not set" := by
  induction ks with
  | nil =>
    intro ps e hp
    cases hp
  | cons k ks ih =>
    intro ps e hp
    cases he : env k with
    | none =>
      simp only [applyParamsEnv, he] at hp
      cases hp
      exact ⟨k, rfl⟩
    | some v =>
      simp only [applyParamsEnv, he] at hp
      exact ih (setParam ps k v) e hp

/-- A "param_from_env … is not set" message is never the flag-conflict
message of `Validate`. -/
theorem paramEnvMsg_ne_flagMsg (k : String) :
    "param_from_env " ++ k ++ " is not set" ≠
      "only one of wait and last_successful can be true; choose one" := by
  intro h
  have h2 := congrArg (fun s => s.data.take 1) h
  simp only [String.data_append] at h2
  have h3 : (['p'] : List Char) = ['o'] := by
    have hL : (("param_from_env ".data ++ k.data) ++ " is not set".data).take 1 =
        ['p'] := rfl
    have hR : ("only one of wait and last_successful can be true; choose one".data).take 1 =
        ['o'] := rfl
    rw [← hL, ← hR, h2]
  exact absurd h3 (by decide)

/-! ### C1 -/

/-- Counterexample to C1: deploy path, `wait = true`. On tick 0 the reference
build 5 is running, so the orchestrator marks `waiting` and continues. On
tick 1 — a tick on which `waiting` is already true and the re-resolved
reference build 5 is still running — the claim says no trigger is issued and
no further fetch is performed; but the trace of tick 1 is
`[fetchBuild 5, fetchBuildLast "5", restart 9]`: control falls through into
the plain-rebuild section, a further `BuildLast` fetch happens, and a restart
trigger is issued (ending the loop with a triggered build). -/
theorem c1_counterexample :
    executeLoop deployWaitSettings (fun _ => busyDeployClient) noopBlocker
        "octocat/hello@5" "octocat" "hello" "5" 5 false 0 =
      (.triggered ⟨109, .pending, "main"⟩,
        [[.fetchBuild 5], [.fetchBuild 5, .fetchBuildLast "5", .restart 9]]) := by
  decide

/-- C1 as amended: in the deploy path with `wait = true`, on a tick where
the waiting flag is already true and the re-resolved reference build is
running or pending, no promote trigger is issued, but the tick does not
simply proceed: control falls through to the plain-rebuild section, which
performs a further `BuildLast` fetch on that same tick (and may issue a
restart trigger depending on what that fetch returns). -/
theorem c1_theorem (s : Settings) (c : Client) (blocker : Int → Except String Unit)
    (entry owner name branch : String) (b : Build)
    (hd : s.deploy ≠ "") (hw : s.wait = true) (hls : s.lastSuccessful = false)
    (hres : c.build owner name (atoi branch) = .ok b)
    (hst : b.status = Status.running ∨ b.status = Status.pending) :
    (∀ n, Call.promote n ∉ (executeTick s c blocker entry owner name branch true).2) ∧
    Call.fetchBuildLast branch ∈ (executeTick s c blocker entry owner name branch true).2 := by
  have hTick : executeTick s c blocker entry owner name branch true =
      plainStep s c blocker entry owner name branch true [Call.fetchBuild (atoi branch)] := by
    rcases hst with h | h <;> simp [executeTick, hd, hw, hls, hres, h]
  rw [hTick]
  cases hbl : c.buildLast owner name branch with
  | error e => simp [plainStep, hbl]
  | ok b0 =>
    by_cases hcond : (b0.status ≠ Status.running ∧ b0.status ≠ Status.pending) ∨ s.wait = false
    · cases hrs : c.buildRestart owner name b0.number s.params with
      | error e2 => simp [plainStep, hbl, hls, hcond, hrs]
      | ok nb =>
        cases hb2 : s.block with
        | false => simp [plainStep, hbl, hls, hcond, hrs, hb2]
        | true =>
          cases hblkr : blocker nb.number with
          | error e3 => simp [plainStep, hbl, hls, hcond, hrs, hb2, hblkr]
          | ok u => simp [plainStep, hbl, hls, hcond, hrs, hb2, hblkr]
    · simp [plainStep, hbl, hls, hcond]

/-- Witness for C1 at a concrete waiting deploy tick with the reference
build running. -/
theorem c1_witness :
    (∀ n, Call.promote n ∉
      (executeTick deployWaitSettings busyDeployClient (fun _ => .ok ())
        "octocat/hello@5" "octocat" "hello" "5" true).2) ∧
    Call.fetchBuildLast "5" ∈
      (executeTick deployWaitSettings busyDeployClient (fun _ => .ok ())
        "octocat/hello@5" "octocat" "hello" "5" true).2 :=
  c1_theorem deployWaitSettings busyDeployClient (fun _ => .ok ())
    "octocat/hello@5" "octocat" "hello" "5" ⟨5, .running, "main"⟩
    (by decide) rfl rfl rfl (Or.inl rfl)

/-! ### C2 -/

/-- Counterexample to C2: deploy path with `last_successful = true`, already
in the waiting sub-state. A transport error from the build-list fetch gives
a fatal outcome on this very tick — not a `continue` to the next tick as the
claim states. -/
theorem c2_counterexample :
    executeTick deployLastSuccessfulSettings downClient (fun _ => .ok ())
        "octocat/hello@main" "octocat" "hello" "main" true =
      (.fatal "unable to get build list for octocat/hello@main", [Call.fetchBuildList]) ∧
    (executeTick deployLastSuccessfulSettings downClient (fun _ => .ok ())
        "octocat/hello@main" "octocat" "hello" "main" true).1 ≠
      TickOutcome.next true :=
  ⟨rfl, by decide⟩

/-- C2 as amended: in the deploy path with `last_successful = true`, a
transport error from the build-list fetch is fatal on the tick it occurs,
regardless of whether the orchestrator is in the waiting sub-state; it is
never retried on a later tick. (Only the latest-build fetch and the trigger
calls are waiting-tolerant.) -/
theorem c2_theorem (s : Settings) (c : Client) (blocker : Int → Except String Unit)
    (entry owner name branch : String) (waiting : Bool) (e : String)
    (hd : s.deploy ≠ "") (hls : s.lastSuccessful = true)
    (herr : c.buildList owner name = .error e) :
    executeTick s c blocker entry owner name branch waiting =
      (.fatal ("unable to get build list for " ++ entry), [Call.fetchBuildList]) := by
  simp [executeTick, hd, hls, herr]

/-- Witness for C2 at a concrete tick outside the waiting sub-state. -/
theorem c2_witness :
    executeTick deployLastSuccessfulSettings downClient (fun _ => .ok ())
        "octocat/hello@main" "octocat" "hello" "main" false =
      (.fatal ("unable to get build list for " ++ "octocat/hello@main"),
        [Call.fetchBuildList]) :=
  c2_theorem deployLastSuccessfulSettings downClient (fun _ => .ok ())
    "octocat/hello@main" "octocat" "hello" "main" false "transport failure"
    (by decide) rfl rfl

/-- An environment in which only the upstream build number variable is set. -/
def upstreamEnv : String → Option String :=
  fun k => if k = "DRONE_BUILD_NUMBER" then some "42" else none

/-- A filesystem with no files. -/
def emptyFs : String → Option (List (String × String)) := fun _ => none

/-- The parameter map the C3 counterexample run of `Validate` produces:
the literal insertion followed by the injected upstream build number. -/
def c3Params : Params :=
  setParam (setParam emptyParams "DRONE_UPSTREAM_BUILD_NUMBER" "7")
    "DRONE_UPSTREAM_BUILD_NUMBER" "42"

/-- A client whose latest build for every branch is a failing build 4 and
whose build list holds no passing build on branch "main". -/
def noPassingClient : Client where
  buildLast := fun _ _ _ => .ok ⟨4, .failing, "main"⟩
  build := fun _ _ _ => .error "transport failure"
  buildList := fun _ _ => .ok [⟨3, .failing, "main"⟩, ⟨2, .passing, "dev"⟩]
  promote := fun _ _ _ _ _ => .error "transport failure"
  buildRestart := fun _ _ _ _ => .error "transport failure"
  buildCancel := fun _ _ _ => .ok ()

/-- A client whose fetches succeed with passing builds but whose trigger
calls (promote and restart) fail. -/
def flakyTriggerClient : Client where
  buildLast := fun _ _ _ => .ok ⟨9, .passing, "main"⟩
  build := fun _ _ _ => .ok ⟨5, .passing, "main"⟩
  buildList := fun _ _ => .ok []
  promote := fun _ _ _ _ _ => .error "trigger refused"
  buildRestart := fun _ _ _ _ => .error "trigger refused"
  buildCancel := fun _ _ _ => .ok ()

/-- A per-tick client: the latest build 7 is running on ticks 0 and 1 and
passing from tick 2 on; restarting build `n` creates build `n + 1`. -/
def threeTickClient : Nat → Client := fun i =>
  { buildLast := fun _ _ _ => .ok ⟨7, if i < 2 then .running else .passing, "main"⟩
    build := fun _ _ _ => .error "transport failure"
    buildList := fun _ _ => .error "transport failure"
    promote := fun _ _ _ _ _ => .error "transport failure"
    buildRestart := fun _ _ n _ => .ok ⟨n + 1, .pending, "main"⟩
    buildCancel := fun _ _ _ => .ok () }

/-! ### C3 -/

/-- Counterexample to C3: with the upstream build number 42 in the
environment and the explicit literal parameter
`DRONE_UPSTREAM_BUILD_NUMBER=7`, the final mapping binds the key to "42" —
the injected value overrides the explicit literal, not the other way round
as the claim states (the injection happens after `parseParams`, not before
it). -/
theorem c3_counterexample :
    (match Validate upstreamEnv emptyFs "token" "https://drone.example.com" "" "" false false
        ["DRONE_UPSTREAM_BUILD_NUMBER=7"] [] with
     | .ok r => r.2 "DRONE_UPSTREAM_BUILD_NUMBER"
     | .error _ => none) = some "42" := rfl

/-- C3 as amended: when `DRONE_BUILD_NUMBER` is present in the environment,
its value is inserted under `DRONE_UPSTREAM_BUILD_NUMBER` after the
literal and file-sourced insertions of `parseParams` and before the
`params_from_env` insertions. Hence, whenever validation succeeds, the key
holds the injected value — overriding any literal or file-sourced parameter
of that name — unless the key is itself declared in `params_from_env`, in
which case the environment value of the key wins. -/
theorem c3_theorem (env : String → Option String)
    (fs : String → Option (List (String × String)))
    (token server host proto : String) (wait ls : Bool)
    (paramList paramsEnv : List String) (v : String)
    (henv : env "DRONE_BUILD_NUMBER" = some v) :
    (∀ srv p, "DRONE_UPSTREAM_BUILD_NUMBER" ∉ paramsEnv →
      Validate env fs token server host proto wait ls paramList paramsEnv = .ok (srv, p) →
      p "DRONE_UPSTREAM_BUILD_NUMBER" = some v) ∧
    (∀ srv p, "DRONE_UPSTREAM_BUILD_NUMBER" ∈ paramsEnv →
      Validate env fs token server host proto wait ls paramList paramsEnv = .ok (srv, p) →
      p "DRONE_UPSTREAM_BUILD_NUMBER" = env "DRONE_UPSTREAM_BUILD_NUMBER") := by
  constructor
  · intro srv p hnm hok
    simp only [Validate] at hok
    split at hok
    · cases hok
    · split at hok
      · cases hok
      · split at hok
        · cases hok
        · split at hok
          · cases hok
          · rename_i params0 hpp
            rw [henv] at hok
            split at hok
            · cases hok
            · rename_i params hape
              cases hok
              have := applyParamsEnv_not_mem env paramsEnv _ hnm _ _ hape
              rw [this]
              simp [setParam]
  · intro srv p hm hok
    simp only [Validate] at hok
    split at hok
    · cases hok
    · split at hok
      · cases hok
      · split at hok
        · cases hok
        · split at hok
          · cases hok
          · rename_i params0 hpp
            rw [henv] at hok
            split at hok
            · cases hok
            · rename_i params hape
              cases hok
              exact applyParamsEnv_mem env paramsEnv _ hm _ _ hape

/-- Witness for C3 at the concrete environment and parameter list of the
counterexample. -/
theorem c3_witness :
    c3Params "DRONE_UPSTREAM_BUILD_NUMBER" = some "42" :=
  (c3_theorem upstreamEnv emptyFs "token" "https://drone.example.com" "" "" false false
      ["DRONE_UPSTREAM_BUILD_NUMBER=7"] [] "42" rfl).1
    "https://drone.example.com" c3Params (by simp) rfl

/-! ### C5 -/

/-- C5: plain-rebuild path with `wait = true`. When the latest-build fetch
returns a running build on ticks 0 and 1 and a passing build on tick 2, and
the restart on tick 2 succeeds, the loop issues no trigger on the first two
ticks (their traces are the lone fetch), issues exactly one restart on the
third tick, and exits immediately — only three ticks run, whatever fuel
remains. -/
theorem c5_theorem (s : Settings) (cl : Nat → Client)
    (blocker : Nat → Int → Except String Unit)
    (entry owner name branch : String) (b1 b2 b3 nb : Build) (fuel : Nat)
    (hw : s.wait = true) (hls : s.lastSuccessful = false) (hd : s.deploy = "")
    (hb : s.block = false)
    (h1 : (cl 0).buildLast owner name branch = .ok b1) (h1s : b1.status = .running)
    (h2 : (cl 1).buildLast owner name branch = .ok b2) (h2s : b2.status = .running)
    (h3 : (cl 2).buildLast owner name branch = .ok b3) (h3s : b3.status = .passing)
    (h3r : (cl 2).buildRestart owner name b3.number s.params = .ok nb)
    (hfuel : 3 ≤ fuel) :
    executeLoop s cl blocker entry owner name branch fuel false 0 =
      (.triggered nb,
        [[.fetchBuildLast branch], [.fetchBuildLast branch],
         [.fetchBuildLast branch, .restart b3.number]]) := by
  obtain ⟨k, rfl⟩ := Nat.exists_eq_add_of_le hfuel
  have hsh : 3 + k = (k + 2) + 1 := by omega
  rw [hsh]
  have e1 : executeTick s (cl 0) (blocker 0) entry owner name branch false =
      (.next true, [.fetchBuildLast branch]) := by
    simp [executeTick, hd, plainStep, h1, h1s, hw]
  have e2 : executeTick s (cl 1) (blocker 1) entry owner name branch true =
      (.next true, [.fetchBuildLast branch]) := by
    simp [executeTick, hd, plainStep, h2, h2s, hw, hls]
  have e3 : executeTick s (cl 2) (blocker 2) entry owner name branch true =
      (.triggered nb, [.fetchBuildLast branch, .restart b3.number]) := by
    simp [executeTick, hd, plainStep, h3, h3s, hw, hls, h3r, hb]
  simp [executeLoop, e1, e2, e3]

/-- Witness for C5 at the concrete three-tick client, with 60 ticks of fuel
(the plugin's default timeout). -/
theorem c5_witness :
    executeLoop plainWaitSettings threeTickClient noopBlocker
        "octocat/hello" "octocat" "hello" "" 60 false 0 =
      (.triggered ⟨8, .pending, "main"⟩,
        [[.fetchBuildLast ""], [.fetchBuildLast ""],
         [.fetchBuildLast "", .restart 7]]) :=
  c5_theorem plainWaitSettings threeTickClient noopBlocker
    "octocat/hello" "octocat" "hello" ""
    ⟨7, .running, "main"⟩ ⟨7, .running, "main"⟩ ⟨7, .passing, "main"⟩
    ⟨8, .pending, "main"⟩ 60
    rfl rfl rfl rfl rfl rfl rfl rfl rfl rfl rfl (by decide)

/-! ### C6 -/

/-- C6: for both trigger calls — promote in the deploy path and restart in
the plain path — a trigger failure while `waiting` is true yields a silent
`continue` to the next tick, and a trigger failure while `waiting` is false
yields a fatal error naming the target entry. -/
theorem c6_theorem :
    (∀ (s : Settings) (c : Client) (blocker : Int → Except String Unit)
       (entry owner name branch : String) (waiting : Bool) (b : Build) (e : String),
       s.deploy ≠ "" → s.lastSuccessful = false →
       c.build owner name (atoi branch) = .ok b → b.status = Status.passing →
       c.promote owner name b.number s.deploy s.params = .error e →
       executeTick s c blocker entry owner name branch waiting =
         ((if waiting then .next waiting
           else .fatal ("unable to trigger deploy for " ++ entry ++ " - err " ++ e)),
          [.fetchBuild (atoi branch), .promote b.number])) ∧
    (∀ (s : Settings) (c : Client) (blocker : Int → Except String Unit)
       (entry owner name branch : String) (waiting : Bool) (b : Build) (e : String),
       s.deploy = "" → s.lastSuccessful = false →
       c.buildLast owner name branch = .ok b → b.status = Status.passing →
       c.buildRestart owner name b.number s.params = .error e →
       executeTick s c blocker entry owner name branch waiting =
         ((if waiting then .next waiting
           else .fatal ("unable to trigger build for " ++ entry)),
          [.fetchBuildLast branch, .restart b.number])) := by
  constructor
  · intro s c blocker entry owner name branch waiting b e hd hls hres hstat herr
    cases waiting <;> simp [executeTick, hd, hls, hres, hstat, herr]
  · intro s c blocker entry owner name branch waiting b e hd hls hbl hstat herr
    cases waiting <;> simp [executeTick, hd, plainStep, hls, hbl, hstat, herr]

/-- Witness for C6: a deploy trigger failure outside the waiting sub-state
is fatal and names the entry; a plain restart failure inside the waiting
sub-state silently continues. -/
theorem c6_witness :
    executeTick deployWaitSettings flakyTriggerClient (fun _ => .ok ())
        "octocat/hello@5" "octocat" "hello" "5" false =
      (.fatal ("unable to trigger deploy for " ++ "octocat/hello@5" ++
          " - err " ++ "trigger refused"),
        [.fetchBuild (atoi "5"), .promote 5]) ∧
    executeTick plainWaitSettings flakyTriggerClient (fun _ => .ok ())
        "octocat/hello" "octocat" "hello" "" true =
      (.next true, [.fetchBuildLast "", .restart 9]) :=
  ⟨c6_theorem.1 deployWaitSettings flakyTriggerClient (fun _ => .ok ())
      "octocat/hello@5" "octocat" "hello" "5" false ⟨5, .passing, "main"⟩
      "trigger refused" (by decide) rfl rfl rfl rfl,
    c6_theorem.2 plainWaitSettings flakyTriggerClient (fun _ => .ok ())
      "octocat/hello" "octocat" "hello" "" true ⟨9, .passing, "main"⟩
      "trigger refused" rfl rfl rfl rfl rfl⟩

/-! ### C7 -/

/-- C7: plain-rebuild path with `last_successful = true`. When the latest
build of the branch is not passing and the build list holds no build whose
source branch equals the selector with status passing, the loop fails on its
first tick with the "unable to get last successful build" error naming the
entry, and the whole trace holds no trigger call (it is exactly the
latest-build fetch followed by the list fetch). -/
theorem c7_theorem (s : Settings) (cl : Nat → Client)
    (blocker : Nat → Int → Except String Unit)
    (entry owner name branch : String) (b : Build) (builds : List Build) (fuel : Nat)
    (hd : s.deploy = "") (hls : s.lastSuccessful = true) (hw : s.wait = false)
    (hbl : (cl 0).buildLast owner name branch = .ok b)
    (hstat : b.status ≠ Status.passing)
    (hlist : (cl 0).buildList owner name = .ok builds)
    (hnone : ∀ x ∈ builds, ¬(x.source = branch ∧ x.status = Status.passing))
    (hfuel : 1 ≤ fuel) :
    executeLoop s cl blocker entry owner name branch fuel false 0 =
      (.fatal ("unable to get last successful build for " ++ entry),
       [[.fetchBuildLast branch, .fetchBuildList]]) := by
  obtain ⟨k, rfl⟩ := Nat.exists_eq_add_of_le hfuel
  have hfind : builds.find?
      (fun x => decide (x.source = branch) && decide (x.status = Status.passing)) = none := by
    apply List.find?_eq_none.mpr
    intro x hx
    simpa using hnone x hx
  have e1 : executeTick s (cl 0) (blocker 0) entry owner name branch false =
      (.fatal ("unable to get last successful build for " ++ entry),
       [.fetchBuildLast branch, .fetchBuildList]) := by
    simp [executeTick, hd, plainStep, hbl, hls, hstat, hw, hlist, hfind]
  have hsh : 1 + k = k + 1 := Nat.add_comm 1 k
  rw [hsh]
  simp [executeLoop, e1]

/-- Witness for C7 at a concrete client with no passing build on "main". -/
theorem c7_witness :
    executeLoop plainLastSuccessfulSettings (fun _ => noPassingClient) noopBlocker
        "octocat/hello@main" "octocat" "hello" "main" 60 false 0 =
      (.fatal ("unable to get last successful build for " ++ "octocat/hello@main"),
       [[.fetchBuildLast "main", .fetchBuildList]]) :=
  c7_theorem plainLastSuccessfulSettings (fun _ => noPassingClient) noopBlocker
    "octocat/hello@main" "octocat" "hello" "main" ⟨4, .failing, "main"⟩
    [⟨3, .failing, "main"⟩, ⟨2, .passing, "dev"⟩] 60
    rfl rfl rfl rfl (by decide) rfl (by decide) (by decide)

/-! ### Helper lemmas about `splitChar` -/

/-- Splitting never yields an empty list of parts. -/
theorem splitChar_ne_nil (sep : Char) (l : List Char) : splitChar sep l ≠ [] := by
  induction l with
  | nil => simp [splitChar]
  | cons c cs ih =>
    simp only [splitChar]
    split
    · simp
    · split
      · simp
      · simp

/-- A list free of the separator splits into itself alone. -/
theorem splitChar_not_mem (sep : Char) (l : List Char) (h : sep ∉ l) :
    splitChar sep l = [l] := by
  induction l with
  | nil => rfl
  | cons c cs ih =>
    have hc : c ≠ sep := fun hcs => h (hcs ▸ List.mem_cons_self c cs)
    have hcs : sep ∉ cs := fun hm => h (List.mem_cons_of_mem c hm)
    simp [splitChar, hc, ih hcs]

/-- Splitting at the first separator occurrence peels off the prefix. -/
theorem splitChar_append (sep : Char) (l₁ l₂ : List Char) (h : sep ∉ l₁) :
    splitChar sep (l₁ ++ sep :: l₂) = l₁ :: splitChar sep l₂ := by
  induction l₁ with
  | nil => simp [splitChar]
  | cons c cs ih =>
    have hc : c ≠ sep := fun hcs => h (hcs ▸ List.mem_cons_self c cs)
    have hcs : sep ∉ cs := fun hm => h (List.mem_cons_of_mem c hm)
    simp [splitChar, hc, ih hcs]

/-- Every character of every part comes from the split list. -/
theorem splitChar_chars_mem (sep : Char) (l : List Char) :
    ∀ p ∈ splitChar sep l, ∀ c ∈ p, c ∈ l := by
  induction l with
  | nil =>
    intro p hp c hc
    simp [splitChar] at hp
    subst hp
    simp at hc
  | cons a cs ih =>
    intro p hp c hc
    by_cases ha : a = sep
    · simp only [splitChar, ha, if_pos rfl] at hp
      rcases List.mem_cons.mp hp with h | h
      · subst h
        simp at hc
      · exact List.mem_cons_of_mem a (ih p h c hc)
    · cases hsc : splitChar sep cs with
      | nil => exact absurd hsc (splitChar_ne_nil sep cs)
      | cons hh tt =>
        simp only [splitChar, ha, if_neg ha, hsc] at hp
        rcases List.mem_cons.mp hp with h | h
        · subst h
          rcases List.mem_cons.mp hc with h2 | h2
          · exact h2 ▸ List.mem_cons_self a cs
          · have hhh : hh ∈ splitChar sep cs := hsc ▸ List.mem_cons_self hh tt
            exact List.mem_cons_of_mem a (ih hh hhh c h2)
        · have hpp : p ∈ splitChar sep cs := hsc ▸ List.mem_cons_of_mem hh h
          exact List.mem_cons_of_mem a (ih p hpp c hc)

/-- An entry `owner/name` with no `@` anywhere and no `/` in the parts
parses to the owner/name pair with an empty selector. -/
theorem parseRepoBranch_no_selector (owner name : List Char)
    (hao : '@' ∉ owner) (han : '@' ∉ name)
    (hso : '/' ∉ owner) (hsn : '/' ∉ name) :
    parseRepoBranch ⟨owner ++ '/' :: name⟩ = (⟨owner⟩, ⟨name⟩, ⟨[]⟩) := by
  have hat : '@' ∉ owner ++ '/' :: name := by
    intro hm
    rcases List.mem_append.mp hm with h | h
    · exact hao h
    · rcases List.mem_cons.mp h with h | h
      · exact absurd h (by decide)
      · exact han h
  have h1 : splitChar '@' (owner ++ '/' :: name) = [owner ++ '/' :: name] :=
    splitChar_not_mem '@' _ hat
  have h2 : splitChar '/' (owner ++ '/' :: name) = [owner, name] := by
    rw [splitChar_append '/' owner name hso, splitChar_not_mem '/' name hsn]
  simp only [parseRepoBranch, h1, h2]

/-- An entry `owner/name@sel` with exactly one `@` parses to the owner/name
pair with the selector taken from the right of the `@`. -/
theorem parseRepoBranch_with_selector (owner name sel : List Char)
    (hao : '@' ∉ owner) (han : '@' ∉ name) (has : '@' ∉ sel)
    (hso : '/' ∉ owner) (hsn : '/' ∉ name) :
    parseRepoBranch ⟨owner ++ '/' :: (name ++ '@' :: sel)⟩ = (⟨owner⟩, ⟨name⟩, ⟨sel⟩) := by
  have hassoc : owner ++ '/' :: (name ++ '@' :: sel) =
      (owner ++ '/' :: name) ++ '@' :: sel := by
    simp
  have hat : '@' ∉ owner ++ '/' :: name := by
    intro hm
    rcases List.mem_append.mp hm with h | h
    · exact hao h
    · rcases List.mem_cons.mp h with h | h
      · exact absurd h (by decide)
      · exact han h
  have h1 : splitChar '@' (owner ++ '/' :: (name ++ '@' :: sel)) =
      [owner ++ '/' :: name, sel] := by
    have h0 := splitChar_append '@' (owner ++ '/' :: name) sel hat
    rw [← hassoc] at h0
    rw [h0, splitChar_not_mem '@' sel has]
  have h2 : splitChar '/' (owner ++ '/' :: name) = [owner, name] := by
    rw [splitChar_append '/' owner name hso, splitChar_not_mem '/' name hsn]
  simp only [parseRepoBranch, h1, h2]

/-- An entry with no `/` at all yields an empty owner. -/
theorem parseRepoBranch_no_slash (entry : String) (h : '/' ∉ entry.data) :
    (parseRepoBranch entry).1 = "" := by
  rcases hsc : splitChar '@' entry.data with _ | ⟨a, t⟩
  · exact absurd hsc (splitChar_ne_nil '@' entry.data)
  · cases t with
    | nil =>
      have hrep : splitChar '/' entry.data = [entry.data] := splitChar_not_mem '/' _ h
      simp only [parseRepoBranch, hsc, hrep]
    | cons b t2 =>
      cases t2 with
      | nil =>
        have hamem : '/' ∉ a := by
          intro hmem
          have h0 : a ∈ splitChar '@' entry.data := hsc ▸ List.mem_cons_self a [b]
          exact h (splitChar_chars_mem '@' entry.data a h0 '/' hmem)
        have hrep : splitChar '/' a = [a] := splitChar_not_mem '/' _ hamem
        simp only [parseRepoBranch, hsc, hrep]
      | cons c t3 =>
        have hrep : splitChar '/' entry.data = [entry.data] := splitChar_not_mem '/' _ h
        simp only [parseRepoBranch, hsc, hrep]

/-- An entry with no `/` is rejected by `Execute` with the parse error
naming the entry. -/
theorem parseEntryCheck_no_slash (entry : String) (h : '/' ∉ entry.data) :
    parseEntryCheck entry = .error ("unable to parse repository name " ++ entry) := by
  unfold parseEntryCheck
  rw [if_pos (Or.inl (parseRepoBranch_no_slash entry h))]

/-- An entry with exactly one `@` whose repo part (the left side of the `@`)
has no `/` yields an empty owner, even when the selector contains `/`. -/
theorem parseRepoBranch_selector_slash (repoL sel : List Char)
    (har : '@' ∉ repoL) (has : '@' ∉ sel) (hsr : '/' ∉ repoL) :
    (parseRepoBranch ⟨repoL ++ '@' :: sel⟩).1 = "" := by
  have h1 : splitChar '@' (repoL ++ '@' :: sel) = [repoL, sel] := by
    rw [splitChar_append '@' repoL sel har, splitChar_not_mem '@' sel has]
  have h2 : splitChar '/' repoL = [repoL] := splitChar_not_mem '/' _ hsr
  simp only [parseRepoBranch, h1, h2]

/-- An entry with exactly one `@` whose repo part has no `/` is rejected by
`Execute` with the parse error naming the entry. -/
theorem parseEntryCheck_selector_slash (repoL sel : List Char)
    (har : '@' ∉ repoL) (has : '@' ∉ sel) (hsr : '/' ∉ repoL) :
    parseEntryCheck ⟨repoL ++ '@' :: sel⟩ =
      .error ("unable to parse repository name " ++ ⟨repoL ++ '@' :: sel⟩) := by
  unfold parseEntryCheck
  rw [if_pos (Or.inl (parseRepoBranch_selector_slash repoL sel har has hsr))]

/-! ### C8 -/

/-- Counterexample to C8: the entry `a/b@x@y` has two `@`s, so the claim
says it is rejected with a parse error (and that any selector would come
from the right of the last `@`). Instead the split on `@` is ignored for
three parts, the entry parses to owner "a" and name "b@x@y" with an empty
selector, and the entry check accepts it. -/
theorem c8_counterexample :
    parseRepoBranch "a/b@x@y" = ("a", "b@x@y", "") ∧
    parseEntryCheck "a/b@x@y" = .ok ("a", "b@x@y", "") :=
  ⟨by decide, rfl⟩

/-- C8 as amended: entries with no `@` or exactly one `@` parse to the
expected `(owner, name, selector)` triple (the selector is the part right
of the single `@`, empty when there is none), and an entry whose repo part
lacks `/` is rejected with a parse error naming the entry — both when the
repo part is the left side of the single `@` (the selector may itself
contain `/`) and when there is no `/` anywhere in the entry (which covers
the zero-`@` and several-`@` entries, whose repo part is the whole entry).
An entry with several `@`s, however, is not rejected as such: the `@`-split
is ignored and the whole entry is split on `/` (see the counterexample). -/
theorem c8_theorem :
    (∀ owner name : List Char, '@' ∉ owner → '@' ∉ name → '/' ∉ owner → '/' ∉ name →
      parseRepoBranch ⟨owner ++ '/' :: name⟩ = (⟨owner⟩, ⟨name⟩, ⟨[]⟩)) ∧
    (∀ owner name sel : List Char, '@' ∉ owner → '@' ∉ name → '@' ∉ sel →
      '/' ∉ owner → '/' ∉ name →
      parseRepoBranch ⟨owner ++ '/' :: (name ++ '@' :: sel)⟩ = (⟨owner⟩, ⟨name⟩, ⟨sel⟩)) ∧
    (∀ repoL sel : List Char, '@' ∉ repoL → '@' ∉ sel → '/' ∉ repoL →
      parseEntryCheck ⟨repoL ++ '@' :: sel⟩ =
        .error ("unable to parse repository name " ++ ⟨repoL ++ '@' :: sel⟩)) ∧
    (∀ entry : String, '/' ∉ entry.data →
      parseEntryCheck entry = .error ("unable to parse repository name " ++ entry)) :=
  ⟨fun o n h1 h2 h3 h4 => parseRepoBranch_no_selector o n h1 h2 h3 h4,
    fun o n s h1 h2 h3 h4 h5 => parseRepoBranch_with_selector o n s h1 h2 h3 h4 h5,
    fun r s h1 h2 h3 => parseEntryCheck_selector_slash r s h1 h2 h3,
    fun e h => parseEntryCheck_no_slash e h⟩

/-- Witness for C8 at the concrete entries `octocat/hello`,
`octocat/hello@123`, `ab@x/y` (slash only in the selector, rejected) and
`nomatch` (no slash at all, rejected). -/
theorem c8_witness :
    parseRepoBranch ⟨"octocat".data ++ '/' :: "hello".data⟩ = ("octocat", "hello", "") ∧
    parseRepoBranch ⟨"octocat".data ++ '/' :: ("hello".data ++ '@' :: "123".data)⟩ =
      ("octocat", "hello", "123") ∧
    parseEntryCheck ⟨"ab".data ++ '@' :: "x/y".data⟩ =
      .error ("unable to parse repository name " ++ ⟨"ab".data ++ '@' :: "x/y".data⟩) ∧
    parseEntryCheck "nomatch" = .error ("unable to parse repository name " ++ "nomatch") :=
  ⟨c8_theorem.1 "octocat".data "hello".data (by decide) (by decide)
      (by decide) (by decide),
    c8_theorem.2.1 "octocat".data "hello".data "123".data (by decide) (by decide)
      (by decide) (by decide) (by decide),
    c8_theorem.2.2.1 "ab".data "x/y".data (by decide) (by decide) (by decide),
    c8_theorem.2.2.2 "nomatch" (by decide)⟩

/-! ### C9 -/

/-- C9: `Validate` never succeeds when `wait` and `last_successful` are both
true, whatever the other settings are; and when they are not both true —
with a token present, a resolvable server and well-formed parameters — the
result is never the flag-conflict error (only later, differently-worded
checks can still fail). -/
theorem c9_theorem :
    (∀ (env : String → Option String) (fs : String → Option (List (String × String)))
       (token server host proto : String) (paramList paramsEnv : List String),
      ∀ r, Validate env fs token server host proto true true paramList paramsEnv ≠ .ok r) ∧
    (∀ (env : String → Option String) (fs : String → Option (List (String × String)))
       (token server host proto : String) (wait ls : Bool)
       (paramList paramsEnv : List String),
      ¬(wait = true ∧ ls = true) → token ≠ "" →
      getServerWithDefaults server host proto ≠ "" →
      (∀ m, parseParams fs paramList ≠ .error m) →
      Validate env fs token server host proto wait ls paramList paramsEnv ≠
        .error "only one of wait and last_successful can be true; choose one") := by
  constructor
  · intro env fs token server host proto pl pe r h
    simp only [Validate] at h
    split at h
    · cases h
    · split at h
      · cases h
      · simp at h
  · intro env fs token server host proto wait ls pl pe hflag htok hsrv hpp hcontra
    simp only [Validate] at hcontra
    rw [if_neg htok, if_neg hsrv] at hcontra
    have hb : ¬((wait && ls) = true) := fun hh => hflag (by simpa using hh)
    rw [if_neg hb] at hcontra
    cases hppr : parseParams fs pl with
    | error m => exact hpp m hppr
    | ok params0 =>
      simp only [hppr] at hcontra
      cases henv : env "DRONE_BUILD_NUMBER" <;> simp only [henv] at hcontra <;>
        · split at hcontra
          · rename_i e hape
            obtain ⟨k, hk⟩ := applyParamsEnv_error_form env pe _ e hape
            have h2 := (Except.error.injEq _ _).mp hcontra
            exact paramEnvMsg_ne_flagMsg k (hk.symm.trans h2)
          · cases hcontra

/-- Witness for C9 at concrete settings: both flags set fails, one flag set
does not produce the flag-conflict error. -/
theorem c9_witness :
    (∀ r, Validate upstreamEnv emptyFs "token" "https://drone.example.com" "" ""
        true true [] [] ≠ .ok r) ∧
    Validate upstreamEnv emptyFs "token" "https://drone.example.com" "" ""
        true false [] [] ≠
      .error "only one of wait and last_successful can be true; choose one" :=
  ⟨c9_theorem.1 upstreamEnv emptyFs "token" "https://drone.example.com" "" "" [] [],
    c9_theorem.2 upstreamEnv emptyFs "token" "https://drone.example.com" "" ""
      true false [] [] (by decide) (by decide) (by decide) (fun m h => nomatch h)⟩

/-! ### C10 -/

/-- C10: during blocking, an error from the per-tick build-by-number fetch
immediately aborts blocking — no further event of the sequence is consumed,
the trace of the tick is the single fetch — and the client's error is
propagated verbatim as the result, with no retry across blocking ticks. -/
theorem c10_theorem (c : Client) (ns nm : String) (bn : Int)
    (rest : List BlockEvent) (e : String)
    (herr : c.build ns nm bn = .error e) :
    blockUntilBuildIsFinished c ns nm bn (BlockEvent.tick :: rest) =
      (.error e, [Call.fetchBuild bn]) := by
  simp [blockUntilBuildIsFinished, herr]

/-- Witness for C10 at a concrete client whose fetch fails. -/
theorem c10_witness :
    blockUntilBuildIsFinished downClient "octocat" "hello" 7
        [BlockEvent.tick, BlockEvent.tick] =
      (.error "transport failure", [Call.fetchBuild 7]) :=
  c10_theorem downClient "octocat" "hello" 7 [BlockEvent.tick] "transport failure" rfl

/-! ### C4 -/

/-- Counterexample to C4: when the cancel call succeeds, the blocker returns
`nil` (`Except.ok ()`), i.e. the invocation reports full success — refuting
the claim that after a successful cancel "the run still terminates without
success (the overall invocation does not report full success)". Exactly one
cancel request is issued (the trace is `[cancel 7]`). -/
theorem c4_counterexample :
    blockUntilBuildIsFinished busyDeployClient "octocat" "hello" 7
        [BlockEvent.signal, BlockEvent.tick] =
      (Except.ok (), [Call.cancel 7]) := rfl

/-- C4 as amended: when the interrupt signal arrives during blocking, exactly
one cancel request is issued and nothing else happens on that pass; if the
cancel call fails, an error naming the build is returned to the invoker; if
the cancel call succeeds, the blocker returns success (`nil`), so the
invocation reports full success rather than a distinct non-success
Cancelled outcome. -/
theorem c4_theorem (c : Client) (ns nm : String) (bn : Int)
    (rest : List BlockEvent) :
    (blockUntilBuildIsFinished c ns nm bn (BlockEvent.signal :: rest)).2 =
      [Call.cancel bn] ∧
    (∀ e, c.buildCancel ns nm bn = .error e →
      blockUntilBuildIsFinished c ns nm bn (BlockEvent.signal :: rest) =
        (.error ("could not cancel downstream job " ++ toString bn),
          [Call.cancel bn])) ∧
    (∀ u, c.buildCancel ns nm bn = .ok u →
      blockUntilBuildIsFinished c ns nm bn (BlockEvent.signal :: rest) =
        (.ok (), [Call.cancel bn])) := by
  refine ⟨?_, ?_, ?_⟩
  · cases h : c.buildCancel ns nm bn <;> simp [blockUntilBuildIsFinished, h]
  · intro e he
    simp [blockUntilBuildIsFinished, he]
  · intro u hu
    simp [blockUntilBuildIsFinished, hu]

/-- Witness for C4 at a concrete client whose cancel call fails. -/
theorem c4_witness :
    blockUntilBuildIsFinished downClient "octocat" "hello" 8 [BlockEvent.signal] =
      (.error ("could not cancel downstream job " ++ toString (8 : Int)),
        [Call.cancel 8]) :=
  (c4_theorem downClient "octocat" "hello" 8 []).2.1 "transport failure" rfl

end DroneDownstream
